import Mathlib

/-!
Verification of the Timeline Query Coordinator
(`useTimelineEventsHandler` / `useTimelineEvents` and their helpers).

The development shallowly embeds the coordinator's pure request-derivation
logic and its stateful search lifecycle.  JavaScript objects are embedded as
Lean structures; an optional object key is an `Option` field where `none`
stands for an absent (or `undefined`) key, matching the key-presence
sensitivity of the `fast-deep-equal` comparison used by the source
(`deepEqual` compares `Object.keys` counts and per-key values, so a missing
key differs from a key holding an empty object).  Closures stored in the
Response (`refetch`, `loadPage`) are not part of the embedded Response value.
-/

/-- Sort direction, mirroring the `Direction` enum (`asc` / `desc`). -/
inductive Direction
  | asc
  | desc
deriving DecidableEq, Repr

/-- One entry of the request's `sort` array (`TimelineRequestSortField`). -/
structure SortField where
  field : String
  direction : Direction
  type : String
  esTypes : List String
deriving DecidableEq, Repr

/-- Default sort (`initSortDefault`): ascending on the timestamp field. -/
def initSortDefault : List SortField :=
  [{ field := "@timestamp", direction := Direction.asc, type := "date", esTypes := ["date"] }]

/-- Timerange object built by the derivation effect:
`{ interval: '12h', from: startDate, to: endDate }`.  The JavaScript keys
`from` / `to` are Lean keywords and are embedded as `fromDate` / `toDate`. -/
structure TimerangeInput where
  interval : String
  fromDate : String
  toDate : String
deriving DecidableEq, Repr

/-- EQL dialect options (`EqlOptions`): four optional keys, each `none` when
the key is absent.  The `size` option is numeric in the source types. -/
structure EqlOptions where
  eventCategoryField : Option String := none
  size : Option Nat := none
  tiebreakerField : Option String := none
  timestampField : Option String := none
deriving DecidableEq, Repr

/-- Runtime field mappings (`RunTimeMappings`), embedded as an association
list from field name to its runtime definition; only structural equality of
this value matters to the coordinator. -/
abbrev RunTimeMappings := List (String × String)

/-- Modelled from the spec: the factory query type constant
`TimelineEventsQueries.all` (declared outside the provided sources); only its
identity matters. -/
def timelineEventsQueriesAll : String := "eventsAll"

/-- Modelled from the spec: the distinguished ("active timeline") query
identity `TimelineId.active` (declared outside the provided sources); only
comparisons against it matter. -/
def timelineIdActive : String := "timeline-1"

/-- Derived request value (`currentRequest` in the derivation effect).  The
nested `pagination` object is flattened into `activePage` / `querySize`, and
the conditional spread of the EQL options appears as four optional fields. -/
structure TimelineRequest where
  defaultIndex : List String
  factoryQueryType : String
  fieldRequested : List String
  fields : List String
  filterQuery : Option String
  activePage : Nat
  querySize : Nat
  language : String
  runtimeMappings : RunTimeMappings
  sort : List SortField
  timerange : Option TimerangeInput
  eventCategoryField : Option String
  eqlSize : Option Nat
  tiebreakerField : Option String
  timestampField : Option String
deriving DecidableEq, Repr

/-- Response value (`TimelineArgs`) held in local state, minus the `refetch`
and `loadPage` closures.  The nested `inspect` and `pageInfo` objects are
flattened. -/
structure TimelineArgsModel where
  id : String
  inspectDsl : List String
  inspectResponse : List String
  totalCount : Int
  pageInfoActivePage : Nat
  pageInfoQuerySize : Nat
  events : List String
  refreshedAt : Nat
deriving DecidableEq, Repr

/-- Loading state (`DataLoadingState` from the unified data table): the enum
has exactly the three members `loaded`, `loading` and `loadingMore` — there is
no error member. -/
inductive DataLoadingState
  | loaded
  | loading
  | loadingMore
deriving DecidableEq, Repr

/-- Modelled from the spec: `createFilter` (from the shared query helpers,
not among the provided sources) returns the filter expression when it is
non-empty and nothing (`undefined`) otherwise; object-valued filters are
represented by their serialized form. -/
def createFilter : Option String → Option String
  | none => none
  | some s => if s = "" then none else some s

/-- Lodash `isEmpty` on an optional string: true on `undefined` and on the
empty string. -/
def isEmptyOptStr : Option String → Bool
  | none => true
  | some s => s.isEmpty

/-- Keeps an optional string key only when lodash `isEmpty` is false on it. -/
def keepNonEmptyStr (v : Option String) : Option String :=
  match v with
  | none => none
  | some s => if s = "" then none else some s

/-- Result of `deStructureEqlOptions`: the subset of EQL option keys that get
spread into the search-parameter objects.  A key is included only when lodash
`isEmpty` is false on its value.  Lodash `isEmpty` is true on every number,
so the numeric `size` key is never included. -/
def deStructureEqlOptions (v : EqlOptions) : EqlOptions :=
  { eventCategoryField := keepNonEmptyStr v.eventCategoryField
    size := none
    tiebreakerField := keepNonEmptyStr v.tiebreakerField
    timestampField := keepNonEmptyStr v.timestampField }

/-- View of an optional `EqlOptions` input as its four keys
(`eqlOptions?.eventCategoryField` and friends): all absent when the whole
object is absent. -/
def optEqlView : Option EqlOptions → EqlOptions
  | none => {}
  | some o => o

/-- View of a request as the four EQL option keys it carries (the
`prevEqlRequest` reads in the derivation effect). -/
def TimelineRequest.eqlView (r : TimelineRequest) : EqlOptions :=
  { eventCategoryField := r.eventCategoryField
    size := r.eqlSize
    tiebreakerField := r.tiebreakerField
    timestampField := r.timestampField }

/-- Timerange slot of a search-parameter object.  The previous-parameter
object always carries the `timerange` key (defaulted to `{}` by
`prevRequest?.timerange ?? {}`), while the current-parameter object omits the
key entirely when no timerange was built; `fast-deep-equal` distinguishes the
two, so all three cases are kept apart. -/
inductive TimerangeSlot
  | absent
  | emptyObj
  | present (t : TimerangeInput)
deriving DecidableEq, Repr

/-- Search-relevant parameter object compared by the derivation effect
(`prevSearchParameters` / `currentSearchParameters`). -/
structure SearchParams where
  defaultIndex : List String
  filterQuery : Option String
  querySize : Nat
  sort : List SortField
  timerange : TimerangeSlot
  runtimeMappings : RunTimeMappings
  eql : EqlOptions
deriving DecidableEq, Repr

/-- Inputs of the derivation effect (the hook props it reads). -/
structure TimelineInputs where
  indexNames : List String
  filterQuery : Option String
  limit : Nat
  sort : List SortField
  runtimeMappings : RunTimeMappings
  startDate : Option String
  endDate : Option String
  eqlOptions : Option EqlOptions
  fields : List String
  language : String
deriving DecidableEq, Repr

/-- Timerange derived from the inputs: built only when both dates are
present and truthy (a JavaScript empty string is falsy), with the fixed
interval used by the effect. -/
def timerangeOfInputs (i : TimelineInputs) : Option TimerangeInput :=
  match i.startDate, i.endDate with
  | some s, some e =>
    if s = "" ∨ e = "" then none
    else some { interval := "12h", fromDate := s, toDate := e }
  | _, _ => none

/-- Previous search parameters (`prevSearchParameters`), read off the previous
request with the defaults the effect applies. -/
def prevSearchParameters (prev : Option TimelineRequest) : SearchParams :=
  { defaultIndex := (prev.map (fun r => r.defaultIndex)).getD []
    filterQuery := some ((prev.bind (fun r => r.filterQuery)).getD "")
    querySize := (prev.map (fun r => r.querySize)).getD 0
    sort := (prev.map (fun r => r.sort)).getD initSortDefault
    timerange :=
      match prev.bind (fun r => r.timerange) with
      | some t => TimerangeSlot.present t
      | none => TimerangeSlot.emptyObj
    runtimeMappings := (prev.map (fun r => r.runtimeMappings)).getD []
    eql :=
      deStructureEqlOptions
        (match prev with
         | none => {}
         | some r => r.eqlView) }

/-- Current search parameters (`currentSearchParameters`), built from the hook
inputs. -/
def currentSearchParameters (i : TimelineInputs) : SearchParams :=
  { defaultIndex := i.indexNames
    filterQuery := createFilter i.filterQuery
    querySize := i.limit
    sort := i.sort
    timerange :=
      match timerangeOfInputs i with
      | some t => TimerangeSlot.present t
      | none => TimerangeSlot.absent
    runtimeMappings := i.runtimeMappings
    eql := deStructureEqlOptions (optEqlView i.eqlOptions) }

/-- Incremental field merge of the derivation effect: newly requested fields
are appended to the previously requested ones; when nothing new is requested
the previous list is kept as is. -/
def mergeFields (prevFields fields : List String) : List String :=
  if (fields.filter (fun f => !(prevFields.contains f))).length > 0 then
    prevFields ++ fields.filter (fun f => !(prevFields.contains f))
  else prevFields

/-- Active page chosen for the derived request: carried over exactly when the
two search-parameter objects are structurally equal, otherwise reset to 0. -/
def newActivePageOf (i : TimelineInputs) (activePage : Nat) (prev : Option TimelineRequest) : Nat :=
  if prevSearchParameters prev = currentSearchParameters i then activePage else 0

/-- The candidate request (`currentRequest`) the derivation effect builds. -/
def currentRequestOf (i : TimelineInputs) (activePage : Nat) (prev : Option TimelineRequest) :
    TimelineRequest :=
  { defaultIndex := i.indexNames
    factoryQueryType := timelineEventsQueriesAll
    fieldRequested := mergeFields ((prev.map (fun r => r.fieldRequested)).getD []) i.fields
    fields := mergeFields ((prev.map (fun r => r.fieldRequested)).getD []) i.fields
    filterQuery := createFilter i.filterQuery
    activePage := newActivePageOf i activePage prev
    querySize := i.limit
    language := i.language
    runtimeMappings := i.runtimeMappings
    sort := i.sort
    timerange := timerangeOfInputs i
    eventCategoryField := (i.eqlOptions.bind (fun o => o.eventCategoryField))
    eqlSize := (i.eqlOptions.bind (fun o => o.size))
    tiebreakerField := (i.eqlOptions.bind (fun o => o.tiebreakerField))
    timestampField := (i.eqlOptions.bind (fun o => o.timestampField)) }

/-- One run of the request-derivation effect: with no index names the state is
left untouched; otherwise the candidate request replaces the previous one
unless the two are structurally equal (in which case the previous reference is
returned so dependents do not re-fire). -/
def deriveRequest (i : TimelineInputs) (activePage : Nat) (prev : Option TimelineRequest) :
    Option TimelineRequest :=
  if i.indexNames = [] then prev
  else
    let currentRequest := currentRequestOf i activePage prev
    if prev = some currentRequest then prev else some currentRequest

/-- Fields requested by the request state (`fieldRequested`, empty when no
request has been derived yet). -/
def fieldsOf : Option TimelineRequest → List String
  | none => []
  | some r => r.fieldRequested

/-- Sequence of derivation runs, each with its inputs and the active-page
state it observes. -/
def runDerive (prev : Option TimelineRequest) : List (TimelineInputs × Nat) →
    Option TimelineRequest
  | [] => prev
  | c :: rest => runDerive (deriveRequest c.1 c.2 prev) rest

/-- Parameters of the enclosing hook render that `timelineSearch` and the
subscription callbacks capture: the query identity, the routing page name,
the suppress flag and the active-page state. -/
structure CallParams where
  id : String
  pageName : String
  skip : Bool
  activePage : Nat
deriving DecidableEq, Repr

/-- Record of one dispatched subscription: its identifier, the abort
controller it was given, and the values its callbacks captured. -/
structure SubEntry where
  subId : Nat
  ctrlId : Nat
  request : TimelineRequest
  id : String
  pageName : String
deriving DecidableEq, Repr

/-- Modelled from the spec: the Page-Scoped Cache (`activeTimeline` from the
active-timeline context module, not among the provided sources): a single
mutable slot holding the last active page, the logical page name, and the
last request/response pair for each dialect family. -/
structure ActiveTimelineCache where
  activePage : Nat
  pageName : String
  request : Option TimelineRequest
  response : Option TimelineArgsModel
  eqlRequest : Option TimelineRequest
  eqlResponse : Option TimelineArgsModel
deriving DecidableEq, Repr

/-- Initial page-scoped cache: nothing recorded, blank page name. -/
def ActiveTimelineCache.init : ActiveTimelineCache :=
  { activePage := 0, pageName := "", request := none, response := none,
    eqlRequest := none, eqlResponse := none }

/-- Observable effects at the Search Service boundary. -/
inductive Effect
  | unsubscribed (subId : Option Nat)
  | abortCalled (ctrlId : Nat)
  | dispatched (subId : Nat) (ctrlId : Nat) (strategy : String) (request : TimelineRequest)
  | errorShown
deriving DecidableEq, Repr

/-- Coordinator machine state: the hook's local state, its mutable refs and
the page-scoped cache, plus bookkeeping for live subscriptions. -/
structure Machine where
  loading : DataLoadingState
  response : TimelineArgsModel
  prevRequest : Option TimelineRequest
  cache : ActiveTimelineCache
  curCtrl : Nat
  ctrlAborted : List Nat
  nextCtrl : Nat
  curSub : Option SubEntry
  activeSubs : List Nat
  nextSub : Nat
  refetchSlot : Option (TimelineRequest × CallParams)
deriving DecidableEq, Repr

/-- Initial Response state of the hook (identical to the empty sentinel the
filter-clear effect installs). -/
def emptyTimelineResponse (id : String) : TimelineArgsModel :=
  { id := id, inspectDsl := [], inspectResponse := [], totalCount := -1,
    pageInfoActivePage := 0, pageInfoQuerySize := 0, events := [], refreshedAt := 0 }

/-- Initial machine: loaded, empty response, fresh abort controller 0, the
initial (already closed) subscription, empty cache, no refetch trigger. -/
def Machine.init (id : String) : Machine :=
  { loading := DataLoadingState.loaded
    response := emptyTimelineResponse id
    prevRequest := none
    cache := ActiveTimelineCache.init
    curCtrl := 0
    ctrlAborted := []
    nextCtrl := 1
    curSub := none
    activeSubs := []
    nextSub := 0
    refetchSlot := none }

/-- Adds a controller id to the aborted set (idempotently). -/
def addAborted (c : Nat) (l : List Nat) : List Nat :=
  if c ∈ l then l else c :: l

/-- Effect of calling unsubscribe on the current subscription ref (`none` for
the initial empty subscription). -/
def unsubEffect (m : Machine) : Effect :=
  Effect.unsubscribed (m.curSub.map (fun e => e.subId))

/-- State change of unsubscribing the current subscription ref: the
subscription it points at stops being live. -/
def unsubscribeCurrent (m : Machine) : Machine :=
  match m.curSub with
  | none => m
  | some e => { m with activeSubs := m.activeSubs.erase e.subId }

/-- State change of aborting the current abort controller. -/
def abortCurrent (m : Machine) : Machine :=
  { m with ctrlAborted := addAborted m.curCtrl m.ctrlAborted }

/-- Strategy selection of the dispatch: the EQL strategy exactly for the EQL
dialect, the plain timeline strategy for every other language. -/
def strategyFor (r : TimelineRequest) : String :=
  if r.language = "eql" then "timelineEqlSearchStrategy" else "timelineSearchStrategy"

/-- Body of `asyncSearch`: records the request as the previous one, creates a
fresh abort controller, sets the loading state from the captured active page,
and dispatches a fresh subscription to the Search Service.  Note that it
performs no cancellation of its own. -/
def asyncSearchStep (ps : CallParams) (req : TimelineRequest) (m : Machine) :
    Machine × List Effect :=
  ({ m with
      prevRequest := some req
      curCtrl := m.nextCtrl
      nextCtrl := m.nextCtrl + 1
      loading := if ps.activePage = 0 then DataLoadingState.loading else DataLoadingState.loadingMore
      curSub := some { subId := m.nextSub, ctrlId := m.nextCtrl, request := req,
                       id := ps.id, pageName := ps.pageName }
      activeSubs := m.nextSub :: m.activeSubs
      nextSub := m.nextSub + 1 },
   [Effect.dispatched m.nextSub m.nextCtrl (strategyFor req) req])

/-- Tail of `timelineSearch`: unsubscribe the current subscription, abort the
current controller, run `asyncSearch` and store it as the refetch trigger. -/
def dispatchSearch (ps : CallParams) (req : TimelineRequest) (m : Machine) :
    Machine × List Effect :=
  let m1 := abortCurrent (unsubscribeCurrent m)
  let r := asyncSearchStep ps req m1
  ({ r.1 with refetchSlot := some (req, ps) },
   unsubEffect m :: Effect.abortCalled m.curCtrl :: r.2)

/-- Cached response of the page-scoped cache for a dialect: the EQL slot for
the EQL dialect, the plain slot otherwise. -/
def cachedRespFor (language : String) (c : ActiveTimelineCache) : Option TimelineArgsModel :=
  if language = "eql" then c.eqlResponse else c.response

/-- Cached request of the page-scoped cache for a dialect. -/
def cachedReqFor (language : String) (c : ActiveTimelineCache) : Option TimelineRequest :=
  if language = "eql" then c.eqlRequest else c.request

/-- State change of the resume-from-cache branch of `timelineSearch`: record
the new page name, abort the in-flight controller, mark loaded, restore the
cached request as the previous-request reference, store the refetch trigger,
and restore the cached response for the dialect when one exists. -/
def restoreState (ps : CallParams) (req : TimelineRequest) (m : Machine) : Machine :=
  { m with
      cache := { m.cache with pageName := ps.pageName }
      ctrlAborted := addAborted m.curCtrl m.ctrlAborted
      loading := DataLoadingState.loaded
      prevRequest := cachedReqFor req.language m.cache
      refetchSlot := some (req, ps)
      response := (cachedRespFor req.language m.cache).getD m.response }

/-- The `timelineSearch` callback.  Guard clauses first; then the
resume-from-cache branch for the distinguished identity on a page-name
change, which returns early when a cached response for the dialect exists;
otherwise cancellation followed by `asyncSearch`. -/
def timelineSearch (ps : CallParams) (request : Option TimelineRequest) (m : Machine) :
    Machine × List Effect :=
  match request with
  | none => (m, [])
  | some req =>
    if ps.pageName = "" ∨ ps.skip = true then (m, [])
    else if ps.id = timelineIdActive ∧ m.cache.pageName ≠ "" ∧ ps.pageName ≠ m.cache.pageName then
      if (cachedRespFor req.language m.cache).isSome then
        (restoreState ps req m, [Effect.abortCalled m.curCtrl])
      else
        let r := dispatchSearch ps req (restoreState ps req m)
        (r.1, Effect.abortCalled m.curCtrl :: r.2)
    else
      dispatchSearch ps req m

/-- Stream response payload delivered by the Search Service on completion. -/
structure StreamResp where
  edges : List String
  pageInfoActivePage : Nat
  pageInfoQuerySize : Nat
  totalCount : Int
  inspectDsl : List String
  inspectResponse : List String
deriving DecidableEq, Repr

/-- Modelled from the spec: `getInspectResponse` (from the shared helpers, not
among the provided sources) builds the inspection log of the Response from
the stream response, keeping the previous debug-query log when the response
carries none. -/
def getInspectResponse (resp : StreamResp) (prev : TimelineArgsModel) :
    List String × List String :=
  (if resp.inspectDsl = [] then prev.inspectDsl else resp.inspectDsl,
   resp.inspectResponse)

/-- Response merge performed by the final `next` notification: events, page
info and total count are replaced, the inspect log rebuilt, and a fresh
refresh timestamp stamped. -/
def mergeResponse (resp : StreamResp) (now : Nat) (prev : TimelineArgsModel) :
    TimelineArgsModel :=
  { prev with
      events := resp.edges
      inspectDsl := (getInspectResponse resp prev).1
      inspectResponse := (getInspectResponse resp prev).2
      pageInfoActivePage := resp.pageInfoActivePage
      pageInfoQuerySize := resp.pageInfoQuerySize
      totalCount := resp.totalCount
      refreshedAt := now }

/-- Cache write performed by the final `next` notification for the
distinguished identity: page name plus the request/response pair of the
dialect family the request belongs to. -/
def cacheOnNext (e : SubEntry) (newResp : TimelineArgsModel) (c : ActiveTimelineCache) :
    ActiveTimelineCache :=
  if e.id = timelineIdActive then
    if e.request.language = "eql" then
      { c with pageName := e.pageName, eqlRequest := some e.request, eqlResponse := some newResp }
    else
      { c with pageName := e.pageName, request := some e.request, response := some newResp }
  else c

/-- The subscription's `next` handler, delivered on the live current
subscription: still-running notifications change nothing; the final
notification marks loaded, merges the response, updates the cache for the
distinguished identity, and unsubscribes. -/
def onStreamNext (isRunning : Bool) (resp : StreamResp) (now : Nat) (m : Machine) :
    Machine × List Effect :=
  match m.curSub with
  | none => (m, [])
  | some e =>
    if e.subId ∈ m.activeSubs then
      if isRunning then (m, [])
      else
        let newResp := mergeResponse resp now m.response
        ({ m with
            loading := DataLoadingState.loaded
            response := newResp
            cache := cacheOnNext e newResp m.cache
            activeSubs := m.activeSubs.erase e.subId },
         [Effect.unsubscribed (some e.subId)])
    else (m, [])

/-- The subscription's `error` handler, delivered on the live current
subscription: marks loaded, reports through the Search Service's error side
channel, and unsubscribes; local state is otherwise untouched. -/
def onStreamError (m : Machine) : Machine × List Effect :=
  match m.curSub with
  | none => (m, [])
  | some e =>
    if e.subId ∈ m.activeSubs then
      ({ m with loading := DataLoadingState.loaded, activeSubs := m.activeSubs.erase e.subId },
       [Effect.errorShown, Effect.unsubscribed (some e.subId)])
    else (m, [])

/-- Events driving a coordinator instance: an invocation of `timelineSearch`,
a stream notification, a stream error, or an invocation of the stored refetch
trigger (which calls the captured `asyncSearch` directly). -/
inductive CoordEvent
  | searchCall (ps : CallParams) (request : Option TimelineRequest)
  | streamNext (isRunning : Bool) (resp : StreamResp) (now : Nat)
  | streamError
  | refetch
deriving Repr

/-- Whether an event is a refetch invocation. -/
def CoordEvent.isRefetch : CoordEvent → Bool
  | CoordEvent.refetch => true
  | _ => false

/-- One step of the coordinator. -/
def stepEvent (m : Machine) : CoordEvent → Machine × List Effect
  | CoordEvent.searchCall ps request => timelineSearch ps request m
  | CoordEvent.streamNext isRunning resp now => onStreamNext isRunning resp now m
  | CoordEvent.streamError => onStreamError m
  | CoordEvent.refetch =>
    match m.refetchSlot with
    | none => (m, [])
    | some c => asyncSearchStep c.2 c.1 m

/-- Runs a sequence of events, accumulating the machine state and the full
effect trace. -/
def runEvents (m : Machine) : List CoordEvent → Machine × List Effect
  | [] => (m, [])
  | e :: rest =>
    let r1 := stepEvent m e
    let r2 := runEvents r1.1 rest
    (r2.1, r1.2 ++ r2.2)

/-- The `timelineSearchHandler` callback: invokes `timelineSearch` unless the
identity is the distinguished one, the timerange kind is not absolute, and
the derived request equals the previously dispatched one. -/
def timelineSearchHandlerStep (ps : CallParams) (timerangeKind : Option String)
    (timelineRequest : Option TimelineRequest) (m : Machine) : Machine × List Effect :=
  if ps.id ≠ timelineIdActive ∨ timerangeKind = some "absolute" ∨
      m.prevRequest ≠ timelineRequest then
    timelineSearch ps timelineRequest m
  else (m, [])

/-- The filter-clear effect: when lodash `isEmpty` holds of the filter input,
the Response is reset to the empty sentinel; otherwise it is left alone. -/
def filterClearEffect (filterQuery : Option String) (id : String)
    (resp : TimelineArgsModel) : TimelineArgsModel :=
  if isEmptyOptStr filterQuery then emptyTimelineResponse id else resp

/-- Search-relevant subset of a request as the specification words it: the
default index list, filter query, page size, sort, time range, runtime field
mappings and EQL dialect options, compared value-for-value. -/
structure SpecSearchSubset where
  defaultIndex : List String
  filterQuery : Option String
  querySize : Nat
  sort : List SortField
  timerange : Option TimerangeInput
  runtimeMappings : RunTimeMappings
  eventCategoryField : Option String
  size : Option Nat
  tiebreakerField : Option String
  timestampField : Option String
deriving DecidableEq, Repr

/-- Specification-worded search-relevant subset of a previous request. -/
def specSubsetOfRequest (r : TimelineRequest) : SpecSearchSubset :=
  { defaultIndex := r.defaultIndex
    filterQuery := r.filterQuery
    querySize := r.querySize
    sort := r.sort
    timerange := r.timerange
    runtimeMappings := r.runtimeMappings
    eventCategoryField := r.eventCategoryField
    size := r.eqlSize
    tiebreakerField := r.tiebreakerField
    timestampField := r.timestampField }

/-- Specification-worded search-relevant subset of the current inputs. -/
def specSubsetOfInputs (i : TimelineInputs) : SpecSearchSubset :=
  { defaultIndex := i.indexNames
    filterQuery := createFilter i.filterQuery
    querySize := i.limit
    sort := i.sort
    timerange := timerangeOfInputs i
    runtimeMappings := i.runtimeMappings
    eventCategoryField := (i.eqlOptions.bind (fun o => o.eventCategoryField))
    size := (i.eqlOptions.bind (fun o => o.size))
    tiebreakerField := (i.eqlOptions.bind (fun o => o.tiebreakerField))
    timestampField := (i.eqlOptions.bind (fun o => o.timestampField)) }

/-- Sample previous request with no timerange, used as a concrete state. -/
def sampleRequestKuery : TimelineRequest :=
  { defaultIndex := ["idx"]
    factoryQueryType := timelineEventsQueriesAll
    fieldRequested := ["@timestamp"]
    fields := ["@timestamp"]
    filterQuery := some "q"
    activePage := 3
    querySize := 25
    language := "kuery"
    runtimeMappings := []
    sort := initSortDefault
    timerange := none
    eventCategoryField := none
    eqlSize := none
    tiebreakerField := none
    timestampField := none }

/-- Sample inputs matching `sampleRequestKuery` on every spec-worded
search-relevant component (both lack a timerange). -/
def sampleInputs : TimelineInputs :=
  { indexNames := ["idx"]
    filterQuery := some "q"
    limit := 25
    sort := initSortDefault
    runtimeMappings := []
    startDate := none
    endDate := none
    eqlOptions := none
    fields := ["@timestamp"]
    language := "kuery" }

/-- Whenever the index list is non-empty, the derivation's result is
(extensionally) the candidate request, whether or not the previous reference
was kept. -/
theorem deriveRequest_derives (i : TimelineInputs) (activePage : Nat)
    (prev : Option TimelineRequest) (h : i.indexNames ≠ []) :
    deriveRequest i activePage prev = some (currentRequestOf i activePage prev) := by
  unfold deriveRequest
  rw [if_neg h]
  by_cases hp : prev = some (currentRequestOf i activePage prev)
  · rw [if_pos hp]
    exact hp
  · rw [if_neg hp]

/-- C1: counterexample.  The claim says that whenever the search-relevant
subset (index list, filter, page size, sort, time range, runtime mappings,
EQL options) of the inputs is deep-structurally equal to the previous
request's subset, the derived request keeps the previous active page.  Here
every subset component matches (in particular the time range is absent on
both sides), yet the derivation resets the active page from 3 to 0: the
code's comparison represents the previous request's missing timerange as an
empty object while omitting the key from the current parameters, so the two
parameter objects never compare equal when no timerange is built. -/
theorem C1_reset_despite_equal_subset_counterexample :
    specSubsetOfInputs sampleInputs = specSubsetOfRequest sampleRequestKuery ∧
    (deriveRequest sampleInputs 3 (some sampleRequestKuery)).map (fun r => r.activePage) =
      some 0 := by
  constructor
  · decide
  · decide

/-- C1 (amended): for every derivation with a non-empty index list, the
derived request's active page equals the previous active page exactly when
the code's search-parameter projections compare structurally equal, and is 0
otherwise.  The projections differ from the spec-worded subset in three
ways: the timerange is keyed by presence (the previous side defaults a
missing timerange to an empty object while the current side omits the key);
the filter is defaulted asymmetrically (the previous side turns a missing
filter into the empty string while the current side projects an empty filter
as absent); and an EQL option is included only when lodash-non-empty, never
the numeric size option. -/
theorem C1_activePage_follows_code_params (i : TimelineInputs) (activePage : Nat)
    (prev : Option TimelineRequest) (h : i.indexNames ≠ []) :
    (deriveRequest i activePage prev).map (fun r => r.activePage) =
      some (if prevSearchParameters prev = currentSearchParameters i then activePage else 0) := by
  rw [deriveRequest_derives i activePage prev h]
  rfl

/-- C1 (amended) witness: the amended theorem evaluated at the concrete
sample derivation. -/
theorem C1_activePage_follows_code_params_witness :
    (deriveRequest sampleInputs 3 (some sampleRequestKuery)).map (fun r => r.activePage) =
      some (if prevSearchParameters (some sampleRequestKuery) =
              currentSearchParameters sampleInputs then 3 else 0) :=
  C1_activePage_follows_code_params sampleInputs 3 (some sampleRequestKuery) (by decide)

/-- Membership in the merged field list coming from the previous fields. -/
theorem mem_mergeFields_left (prevFields fields : List String) :
    ∀ f ∈ prevFields, f ∈ mergeFields prevFields fields := by
  intro f hf
  unfold mergeFields
  split
  · exact List.mem_append_left _ hf
  · exact hf

/-- Membership in the merged field list coming from the currently requested
fields. -/
theorem mem_mergeFields_right (prevFields fields : List String) :
    ∀ f ∈ fields, f ∈ mergeFields prevFields fields := by
  intro f hf
  unfold mergeFields
  by_cases hmem : f ∈ prevFields
  · split
    · exact List.mem_append_left _ hmem
    · exact hmem
  · have hcont : prevFields.contains f = false := by
      cases hb : prevFields.contains f
      · rfl
      · exact absurd (List.elem_iff.mp hb) hmem
    have hfilter : f ∈ fields.filter (fun g => !(prevFields.contains g)) :=
      List.mem_filter.mpr ⟨hf, by rw [hcont]; rfl⟩
    split
    · exact List.mem_append_right _ hfilter
    · rename_i hlen
      exact absurd (List.length_pos_of_mem hfilter) (by omega)

/-- Fields of the request state, expressed through the default the effect
applies. -/
theorem fieldsOf_eq_getD (prev : Option TimelineRequest) :
    fieldsOf prev = (prev.map (fun r => r.fieldRequested)).getD [] := by
  cases prev <;> rfl

/-- Single derivation step: previous fields and (when a derivation happens)
the currently requested fields are all kept in the derived request. -/
theorem fieldsOf_deriveRequest (i : TimelineInputs) (activePage : Nat)
    (prev : Option TimelineRequest) :
    (∀ f ∈ fieldsOf prev, f ∈ fieldsOf (deriveRequest i activePage prev)) ∧
    (i.indexNames ≠ [] → ∀ f ∈ i.fields, f ∈ fieldsOf (deriveRequest i activePage prev)) := by
  unfold deriveRequest
  by_cases hidx : i.indexNames = []
  · rw [if_pos hidx]
    exact ⟨fun f hf => hf, fun h => absurd hidx h⟩
  · rw [if_neg hidx]
    by_cases hp : prev = some (currentRequestOf i activePage prev)
    · rw [if_pos hp]
      constructor
      · exact fun f hf => hf
      · intro _ f hf
        rw [hp]
        show f ∈ (currentRequestOf i activePage prev).fieldRequested
        exact mem_mergeFields_right _ _ f hf
    · rw [if_neg hp]
      constructor
      · intro f hf
        show f ∈ (currentRequestOf i activePage prev).fieldRequested
        rw [fieldsOf_eq_getD] at hf
        exact mem_mergeFields_left _ _ f hf
      · intro _ f hf
        exact mem_mergeFields_right _ _ f hf

/-- Fields only grow along any sequence of derivation runs. -/
theorem fieldsOf_runDerive_mono (cs : List (TimelineInputs × Nat))
    (prev : Option TimelineRequest) :
    ∀ f ∈ fieldsOf prev, f ∈ fieldsOf (runDerive prev cs) := by
  induction cs generalizing prev with
  | nil => exact fun f hf => hf
  | cons c rest ih =>
    intro f hf
    exact ih (deriveRequest c.1 c.2 prev) f ((fieldsOf_deriveRequest c.1 c.2 prev).1 f hf)

/-- Running a concatenated schedule of derivations. -/
theorem runDerive_append (l₁ l₂ : List (TimelineInputs × Nat)) (prev : Option TimelineRequest) :
    runDerive prev (l₁ ++ l₂) = runDerive (runDerive prev l₁) l₂ := by
  induction l₁ generalizing prev with
  | nil => rfl
  | cons c rest ih => exact ih (deriveRequest c.1 c.2 prev)

/-- C2: the derived request's field set is monotonically non-decreasing
across successive derivations.  For any schedule of derivation runs, (a) every
field present after the first `i` runs is still present after any later run
`j ≥ i` (so every field of every previously derived request survives), and
(b) every field requested by the inputs of run `k` (when that run actually
derives, i.e. its index list is non-empty) is contained in the request
derived by that run. -/
theorem C2_fieldRequested_monotone (cs : List (TimelineInputs × Nat))
    (prev : Option TimelineRequest) :
    (∀ i j : Nat, i ≤ j →
       ∀ f ∈ fieldsOf (runDerive prev (cs.take i)), f ∈ fieldsOf (runDerive prev (cs.take j))) ∧
    (∀ k : Nat, ∀ c ∈ cs[k]?, c.1.indexNames ≠ [] →
       ∀ f ∈ c.1.fields, f ∈ fieldsOf (runDerive prev (cs.take (k + 1)))) := by
  constructor
  · intro i j hij f hf
    have hj : j = i + (j - i) := by omega
    rw [hj, List.take_add cs i (j - i), runDerive_append]
    exact fieldsOf_runDerive_mono _ _ f hf
  · intro k c hc hidx f hf
    have hk : cs[k]? = some c := hc
    rw [List.take_succ, hk]
    show f ∈ fieldsOf (runDerive prev (cs.take k ++ [c]))
    rw [runDerive_append]
    exact (fieldsOf_deriveRequest c.1 c.2 (runDerive prev (cs.take k))).2 hidx f hf

/-- Sample derivation inputs requesting field "a" (with a timerange). -/
def sampleInputsA : TimelineInputs :=
  { indexNames := ["idx"]
    filterQuery := some "q"
    limit := 25
    sort := initSortDefault
    runtimeMappings := []
    startDate := some "2020-01-01"
    endDate := some "2020-01-02"
    eqlOptions := none
    fields := ["a"]
    language := "kuery" }

/-- Sample derivation inputs requesting field "b" instead of "a". -/
def sampleInputsB : TimelineInputs :=
  { sampleInputsA with fields := ["b"] }

/-- C2 witness: along the concrete two-run schedule that first requests field
"a" and then only field "b", both fields are present in the final derived
request, by the monotonicity theorem. -/
theorem C2_fieldRequested_monotone_witness :
    "a" ∈ fieldsOf (runDerive none ([(sampleInputsA, 0), (sampleInputsB, 0)].take 2)) ∧
    "b" ∈ fieldsOf (runDerive none ([(sampleInputsA, 0), (sampleInputsB, 0)].take 2)) :=
  ⟨(C2_fieldRequested_monotone [(sampleInputsA, 0), (sampleInputsB, 0)] none).1 1 2
      (by omega) "a" (by decide),
   (C2_fieldRequested_monotone [(sampleInputsA, 0), (sampleInputsB, 0)] none).2 1
      (sampleInputsB, 0) rfl (by decide) "b" (by decide)⟩

/-- C6: whenever the filter input is lodash-empty, the filter-clear effect
resets the Response to the empty sentinel — total count -1, no events, page
info 0/0, empty inspect log, refreshed-at 0 — regardless of the prior
Response state. -/
theorem C6_filter_clear_resets (filterQuery : Option String) (id : String)
    (resp : TimelineArgsModel) (h : isEmptyOptStr filterQuery = true) :
    filterClearEffect filterQuery id resp =
      { id := id, inspectDsl := [], inspectResponse := [], totalCount := -1,
        pageInfoActivePage := 0, pageInfoQuerySize := 0, events := [], refreshedAt := 0 } := by
  unfold filterClearEffect
  rw [h]
  rfl

/-- C6 witness: clearing the filter from a non-trivial prior Response. -/
theorem C6_filter_clear_resets_witness :
    filterClearEffect none "tbl"
        { id := "tbl", inspectDsl := ["d"], inspectResponse := ["r"], totalCount := 7,
          pageInfoActivePage := 2, pageInfoQuerySize := 25, events := ["e1", "e2"],
          refreshedAt := 99 } =
      { id := "tbl", inspectDsl := [], inspectResponse := [], totalCount := -1,
        pageInfoActivePage := 0, pageInfoQuerySize := 0, events := [], refreshedAt := 0 } :=
  C6_filter_clear_resets none "tbl" _ (by decide)

/-- Aborting a controller records it among the aborted ones. -/
theorem mem_addAborted (c : Nat) (l : List Nat) : c ∈ addAborted c l := by
  unfold addAborted
  split
  · assumption
  · exact List.mem_cons_self c l

/-- C9: when the request is absent, the logical page name is blank, or the
skip flag is set, `timelineSearch` is a no-op: the machine (loading state,
Response, previous-request reference, page-scoped cache, subscriptions) is
unchanged and no effect — in particular no dispatch — reaches the Search
Service. -/
theorem C9_guard_no_op (ps : CallParams) (request : Option TimelineRequest) (m : Machine)
    (h : request = none ∨ ps.pageName = "" ∨ ps.skip = true) :
    timelineSearch ps request m = (m, []) := by
  rcases h with h | h | h
  · rw [h]
    rfl
  · cases request with
    | none => rfl
    | some req =>
      simp only [timelineSearch]
      rw [if_pos (Or.inl h)]
  · cases request with
    | none => rfl
    | some req =>
      simp only [timelineSearch]
      rw [if_pos (Or.inr h)]

/-- C9 witness: a skipped call on a concrete live machine. -/
theorem C9_guard_no_op_witness :
    timelineSearch { id := "tbl", pageName := "alerts", skip := true, activePage := 0 }
        (some sampleRequestKuery) (Machine.init "tbl") =
      (Machine.init "tbl", []) :=
  C9_guard_no_op _ _ _ (Or.inr (Or.inr rfl))

/-- Characterization of the error handler on a live current subscription. -/
theorem onStreamError_live (m : Machine) (e : SubEntry)
    (hcur : m.curSub = some e) (hlive : e.subId ∈ m.activeSubs) :
    onStreamError m =
      ({ m with loading := DataLoadingState.loaded,
                activeSubs := m.activeSubs.erase e.subId },
       [Effect.errorShown, Effect.unsubscribed (some e.subId)]) := by
  simp only [onStreamError, hcur]
  rw [if_pos hlive]

/-- C5: on a stream error the coordinator sets loading-state to loaded (the
loading-state enum has no error member), emits the Search Service's error
side channel, unsubscribes the live subscription, and leaves the accumulated
Response (events, page info, total count, inspect log, refreshed-at), the
previous-request reference and the page-scoped cache unchanged. -/
theorem C5_error_keeps_response (m : Machine) (e : SubEntry)
    (hcur : m.curSub = some e) (hlive : e.subId ∈ m.activeSubs) :
    (onStreamError m).1.loading = DataLoadingState.loaded ∧
    (onStreamError m).2 = [Effect.errorShown, Effect.unsubscribed (some e.subId)] ∧
    (onStreamError m).1.response = m.response ∧
    (onStreamError m).1.activeSubs = m.activeSubs.erase e.subId ∧
    (onStreamError m).1.prevRequest = m.prevRequest ∧
    (onStreamError m).1.cache = m.cache := by
  rw [onStreamError_live m e hcur hlive]
  exact ⟨rfl, rfl, rfl, rfl, rfl, rfl⟩

/-- Sample live subscription entry. -/
def sampleSub : SubEntry :=
  { subId := 0, ctrlId := 1, request := sampleRequestKuery, id := "tbl", pageName := "alerts" }

/-- Sample machine with one live in-flight subscription. -/
def sampleMachineLive : Machine :=
  { Machine.init "tbl" with
      loading := DataLoadingState.loading
      curSub := some sampleSub
      activeSubs := [0]
      nextSub := 1
      curCtrl := 1
      nextCtrl := 2 }

/-- C5 witness: the error handler evaluated on the concrete live machine. -/
theorem C5_error_keeps_response_witness :
    (onStreamError sampleMachineLive).1.loading = DataLoadingState.loaded ∧
    (onStreamError sampleMachineLive).2 =
      [Effect.errorShown, Effect.unsubscribed (some sampleSub.subId)] ∧
    (onStreamError sampleMachineLive).1.response = sampleMachineLive.response ∧
    (onStreamError sampleMachineLive).1.activeSubs =
      sampleMachineLive.activeSubs.erase sampleSub.subId ∧
    (onStreamError sampleMachineLive).1.prevRequest = sampleMachineLive.prevRequest ∧
    (onStreamError sampleMachineLive).1.cache = sampleMachineLive.cache :=
  C5_error_keeps_response sampleMachineLive sampleSub rfl (by decide)

/-- C3: resume-from-cache short-circuit.  For the distinguished identity,
with a non-blank recorded page name different from the current page name and
a cached Response for the request's dialect, `timelineSearch` restores the
cached Response into local state, marks loaded, aborts the in-flight
controller, and emits no dispatch to the Search Service. -/
theorem C3_resume_from_cache (ps : CallParams) (req : TimelineRequest) (m : Machine)
    (resp : TimelineArgsModel)
    (hid : ps.id = timelineIdActive)
    (hrec : m.cache.pageName ≠ "")
    (hpn : ps.pageName ≠ "")
    (hdiff : ps.pageName ≠ m.cache.pageName)
    (hskip : ps.skip = false)
    (hcached : cachedRespFor req.language m.cache = some resp) :
    (timelineSearch ps (some req) m).1.response = resp ∧
    (timelineSearch ps (some req) m).1.loading = DataLoadingState.loaded ∧
    m.curCtrl ∈ (timelineSearch ps (some req) m).1.ctrlAborted ∧
    (timelineSearch ps (some req) m).2 = [Effect.abortCalled m.curCtrl] ∧
    ∀ s c str r, Effect.dispatched s c str r ∉ (timelineSearch ps (some req) m).2 := by
  have hout : timelineSearch ps (some req) m =
      (restoreState ps req m, [Effect.abortCalled m.curCtrl]) := by
    simp only [timelineSearch]
    rw [if_neg (by
      intro hcontra
      rcases hcontra with hcontra | hcontra
      · exact hpn hcontra
      · rw [hskip] at hcontra
        exact Bool.false_ne_true hcontra)]
    rw [if_pos ⟨hid, hrec, hdiff⟩]
    rw [if_pos (by rw [hcached]; rfl)]
  rw [hout]
  refine ⟨?_, rfl, ?_, rfl, ?_⟩
  · show (cachedRespFor req.language m.cache).getD m.response = resp
    rw [hcached]
    rfl
  · exact mem_addAborted m.curCtrl m.ctrlAborted
  · intro s c str r hmem
    rcases List.mem_singleton.mp hmem with h
    exact Effect.noConfusion h

/-- Sample cached Response stored in the page-scoped cache. -/
def sampleCachedResp : TimelineArgsModel :=
  { id := "timeline-1", inspectDsl := ["dsl"], inspectResponse := ["resp"], totalCount := 12,
    pageInfoActivePage := 1, pageInfoQuerySize := 25, events := ["evt"], refreshedAt := 5 }

/-- Sample machine whose page-scoped cache recorded page "alerts" with a
cached non-EQL request/response pair. -/
def sampleMachineCached : Machine :=
  { Machine.init "timeline-1" with
      cache := { activePage := 2, pageName := "alerts", request := some sampleRequestKuery,
                 response := some sampleCachedResp, eqlRequest := none, eqlResponse := none } }

/-- Call parameters for the distinguished identity arriving on page "hosts". -/
def samplePsActive : CallParams :=
  { id := timelineIdActive, pageName := "hosts", skip := false, activePage := 0 }

/-- C3 witness: the resume-from-cache short-circuit evaluated on the concrete
cached machine for a page change to "hosts". -/
theorem C3_resume_from_cache_witness :
    (timelineSearch samplePsActive (some sampleRequestKuery) sampleMachineCached).1.response =
      sampleCachedResp ∧
    (timelineSearch samplePsActive (some sampleRequestKuery) sampleMachineCached).1.loading =
      DataLoadingState.loaded ∧
    sampleMachineCached.curCtrl ∈
      (timelineSearch samplePsActive (some sampleRequestKuery) sampleMachineCached).1.ctrlAborted ∧
    (timelineSearch samplePsActive (some sampleRequestKuery) sampleMachineCached).2 =
      [Effect.abortCalled sampleMachineCached.curCtrl] ∧
    ∀ s c str r, Effect.dispatched s c str r ∉
      (timelineSearch samplePsActive (some sampleRequestKuery) sampleMachineCached).2 :=
  C3_resume_from_cache samplePsActive sampleRequestKuery sampleMachineCached sampleCachedResp
    rfl (by decide) (by decide) (by decide) rfl (by decide)

/-- C10: the search handler step skips `timelineSearch` exactly when all
three hold — the identity is the distinguished one, the timerange kind is not
absolute, and the derived request equals the previously dispatched one — and
invokes `timelineSearch` whenever any of the three fails: a non-distinguished
identity or an absolute timerange kind fires even on an identical request,
and with the distinguished identity and a non-absolute timerange a changed
request fires too. -/
theorem C10_handler_condition (ps : CallParams) (timerangeKind : Option String)
    (timelineRequest : Option TimelineRequest) (m : Machine) :
    ((ps.id = timelineIdActive ∧ timerangeKind ≠ some "absolute" ∧
        m.prevRequest = timelineRequest) →
      timelineSearchHandlerStep ps timerangeKind timelineRequest m = (m, [])) ∧
    ((ps.id ≠ timelineIdActive ∨ timerangeKind = some "absolute" ∨
        m.prevRequest ≠ timelineRequest) →
      timelineSearchHandlerStep ps timerangeKind timelineRequest m =
        timelineSearch ps timelineRequest m) := by
  constructor
  · rintro ⟨h1, h2, h3⟩
    unfold timelineSearchHandlerStep
    rw [if_neg]
    push_neg
    exact ⟨h1, h2, h3⟩
  · intro h
    unfold timelineSearchHandlerStep
    rw [if_pos h]

/-- C10 witness: the three concrete cases — the skip case for the
distinguished identity with a relative timerange and an unchanged request,
the always-dispatch case for an absolute timerange with the very same
unchanged request, and the firing case for the distinguished identity with a
relative timerange but a changed request. -/
theorem C10_handler_condition_witness :
    (timelineSearchHandlerStep samplePsActive (some "relative") none (Machine.init "timeline-1") =
      (Machine.init "timeline-1", [])) ∧
    (timelineSearchHandlerStep samplePsActive (some "absolute") none (Machine.init "timeline-1") =
      timelineSearch samplePsActive none (Machine.init "timeline-1")) ∧
    (timelineSearchHandlerStep samplePsActive (some "relative") (some sampleRequestKuery)
        (Machine.init "timeline-1") =
      timelineSearch samplePsActive (some sampleRequestKuery) (Machine.init "timeline-1")) :=
  ⟨(C10_handler_condition samplePsActive (some "relative") none (Machine.init "timeline-1")).1
      ⟨rfl, by decide, rfl⟩,
   (C10_handler_condition samplePsActive (some "absolute") none (Machine.init "timeline-1")).2
      (Or.inr (Or.inl rfl)),
   (C10_handler_condition samplePsActive (some "relative") (some sampleRequestKuery)
        (Machine.init "timeline-1")).2
      (Or.inr (Or.inr (by decide)))⟩

/-- Any dispatch effect emitted by `asyncSearch` carries the strategy chosen
from its own request's language. -/
theorem strategy_of_asyncSearchStep (ps : CallParams) (req : TimelineRequest) (m : Machine)
    (s c : Nat) (str : String) (r : TimelineRequest)
    (h : Effect.dispatched s c str r ∈ (asyncSearchStep ps req m).2) :
    str = strategyFor r := by
  simp only [asyncSearchStep, List.mem_singleton, Effect.dispatched.injEq] at h
  obtain ⟨-, -, h3, h4⟩ := h
  rw [h3, h4]

/-- Any dispatch effect emitted by the cancellation-then-search tail carries
the strategy chosen from its own request's language. -/
theorem strategy_of_dispatchSearch (ps : CallParams) (req : TimelineRequest) (m : Machine)
    (s c : Nat) (str : String) (r : TimelineRequest)
    (h : Effect.dispatched s c str r ∈ (dispatchSearch ps req m).2) :
    str = strategyFor r := by
  simp only [dispatchSearch, List.mem_cons] at h
  rcases h with h | h | h
  · exact absurd h (by simp [unsubEffect])
  · exact absurd h (by simp)
  · exact strategy_of_asyncSearchStep ps req _ s c str r h

/-- Any dispatch effect emitted by `timelineSearch` carries the strategy
chosen from its own request's language. -/
theorem strategy_of_timelineSearch (ps : CallParams) (request : Option TimelineRequest)
    (m : Machine) (s c : Nat) (str : String) (r : TimelineRequest)
    (h : Effect.dispatched s c str r ∈ (timelineSearch ps request m).2) :
    str = strategyFor r := by
  cases request with
  | none => simp [timelineSearch] at h
  | some req =>
    simp only [timelineSearch] at h
    split at h
    · simp at h
    · split at h
      · split at h
        · simp at h
        · rcases List.mem_cons.mp h with h | h
          · exact absurd h (by simp)
          · exact strategy_of_dispatchSearch ps req _ s c str r h
      · exact strategy_of_dispatchSearch ps req m s c str r h

/-- Any dispatch effect emitted by any coordinator step carries the strategy
chosen from its own request's language. -/
theorem strategy_of_stepEvent (m : Machine) (ev : CoordEvent)
    (s c : Nat) (str : String) (r : TimelineRequest)
    (h : Effect.dispatched s c str r ∈ (stepEvent m ev).2) :
    str = strategyFor r := by
  cases ev with
  | searchCall ps request => exact strategy_of_timelineSearch ps request m s c str r h
  | streamNext isRunning resp now =>
    simp only [stepEvent, onStreamNext] at h
    split at h
    · simp at h
    · split at h
      · split at h
        · simp at h
        · simp at h
      · simp at h
  | streamError =>
    simp only [stepEvent, onStreamError] at h
    split at h
    · simp at h
    · split at h
      · simp at h
      · simp at h
  | refetch =>
    simp only [stepEvent] at h
    split at h
    · simp at h
    · rename_i c2 _
      exact strategy_of_asyncSearchStep c2.2 c2.1 m s c str r h

/-- C7: every dispatch handed to the Search Service uses the EQL strategy
identifier exactly when the dispatched request's language is "eql", and the
plain timeline strategy identifier for every other language (in particular
"kuery" and "lucene"). -/
theorem C7_strategy_selection (m : Machine) (ev : CoordEvent)
    (s c : Nat) (str : String) (r : TimelineRequest)
    (h : Effect.dispatched s c str r ∈ (stepEvent m ev).2) :
    (str = "timelineEqlSearchStrategy" ↔ r.language = "eql") ∧
    (r.language ≠ "eql" → str = "timelineSearchStrategy") := by
  have hs := strategy_of_stepEvent m ev s c str r h
  subst hs
  unfold strategyFor
  by_cases hl : r.language = "eql"
  · rw [if_pos hl]
    exact ⟨⟨fun _ => hl, fun _ => rfl⟩, fun hn => absurd hl hn⟩
  · rw [if_neg hl]
    refine ⟨⟨fun he => absurd he (by decide), fun hg => absurd hg hl⟩, fun _ => rfl⟩

/-- Sample EQL variant of the sample request. -/
def sampleRequestEql : TimelineRequest :=
  { sampleRequestKuery with language := "eql" }

/-- Call parameters of a non-distinguished identity on page "alerts". -/
def samplePsTbl : CallParams :=
  { id := "tbl", pageName := "alerts", skip := false, activePage := 0 }

/-- C7 witness: the strategy property evaluated on two concrete dispatches —
one for a "kuery" request and one for an "eql" request. -/
theorem C7_strategy_selection_witness :
    ((("timelineSearchStrategy" : String) = "timelineEqlSearchStrategy" ↔
        sampleRequestKuery.language = "eql") ∧
      (sampleRequestKuery.language ≠ "eql" →
        ("timelineSearchStrategy" : String) = "timelineSearchStrategy")) ∧
    ((("timelineEqlSearchStrategy" : String) = "timelineEqlSearchStrategy" ↔
        sampleRequestEql.language = "eql") ∧
      (sampleRequestEql.language ≠ "eql" →
        ("timelineEqlSearchStrategy" : String) = "timelineSearchStrategy")) :=
  ⟨C7_strategy_selection (Machine.init "tbl")
      (CoordEvent.searchCall samplePsTbl (some sampleRequestKuery)) 0 1
      "timelineSearchStrategy" sampleRequestKuery (by decide),
   C7_strategy_selection (Machine.init "tbl")
      (CoordEvent.searchCall samplePsTbl (some sampleRequestEql)) 0 1
      "timelineEqlSearchStrategy" sampleRequestEql (by decide)⟩

/-- Loading state installed by the cancellation-then-search tail. -/
theorem loading_of_dispatchSearch (ps : CallParams) (req : TimelineRequest) (m : Machine) :
    (dispatchSearch ps req m).1.loading =
      if ps.activePage = 0 then DataLoadingState.loading else DataLoadingState.loadingMore := rfl

/-- Sample request whose own requested page is 0. -/
def sampleRequestPage0 : TimelineRequest :=
  { sampleRequestKuery with activePage := 0 }

/-- Call parameters whose active-page state is 2, as after a `loadPage(2)`
whose re-derived request has not landed yet. -/
def samplePsStale : CallParams :=
  { id := "tbl", pageName := "alerts", skip := false, activePage := 2 }

/-- C8: counterexample.  The claim ties the loading flag to the dispatched
request's own page, but the source computes it from the hook's active-page
state (line 225).  The two can differ on a reachable dispatch: right after
`loadPage(2)` the handler re-runs with the new state while the page-0 request
is still the derived one, so a request whose requested page is 0 is
dispatched, yet the loading state installed is "loadingMore", not
"loading". -/
theorem C8_stale_page_counterexample :
    Effect.dispatched 0 1 "timelineSearchStrategy" sampleRequestPage0 ∈
      (timelineSearch samplePsStale (some sampleRequestPage0) (Machine.init "tbl")).2 ∧
    sampleRequestPage0.activePage = 0 ∧
    (timelineSearch samplePsStale (some sampleRequestPage0) (Machine.init "tbl")).1.loading =
      DataLoadingState.loadingMore := by
  refine ⟨by decide, by decide, by decide⟩

/-- C8 (amended): whenever `timelineSearch` actually dispatches, the loading
state it installs is "loading" when the hook's active-page state is 0 and
"loadingMore" when that state is positive.  The flag is computed from the
active-page state, not from the dispatched request's own page; the two agree
whenever the derivation that produced the request has landed, but a stale
request dispatched with a newer page state takes the flag from the state. -/
theorem C8_loading_from_active_page_state (ps : CallParams) (req : TimelineRequest)
    (m : Machine) (s c : Nat) (str : String) (r : TimelineRequest)
    (h : Effect.dispatched s c str r ∈ (timelineSearch ps (some req) m).2) :
    (timelineSearch ps (some req) m).1.loading =
      if ps.activePage = 0 then DataLoadingState.loading else DataLoadingState.loadingMore := by
  simp only [timelineSearch] at h ⊢
  by_cases hg : ps.pageName = "" ∨ ps.skip = true
  · rw [if_pos hg] at h
    simp at h
  · rw [if_neg hg] at h ⊢
    by_cases hres : ps.id = timelineIdActive ∧ m.cache.pageName ≠ "" ∧
        ps.pageName ≠ m.cache.pageName
    · rw [if_pos hres] at h ⊢
      by_cases hc : (cachedRespFor req.language m.cache).isSome = true
      · rw [if_pos hc] at h
        simp at h
      · rw [if_neg hc] at h ⊢
        exact loading_of_dispatchSearch ps req (restoreState ps req m)
    · rw [if_neg hres] at h ⊢
      exact loading_of_dispatchSearch ps req m

/-- C8 (amended) witness: a concrete dispatch with page-0 active-page state
installs the "loading" state. -/
theorem C8_loading_from_active_page_state_witness :
    (timelineSearch samplePsTbl (some sampleRequestPage0) (Machine.init "tbl")).1.loading =
      if samplePsTbl.activePage = 0 then DataLoadingState.loading
      else DataLoadingState.loadingMore :=
  C8_loading_from_active_page_state samplePsTbl sampleRequestPage0 (Machine.init "tbl") 0 1
    "timelineSearchStrategy" sampleRequestPage0 (by decide)

/-- Whether an effect is a dispatch to the Search Service. -/
def Effect.isDispatch : Effect → Bool
  | Effect.dispatched _ _ _ _ => true
  | _ => false

/-- Whether an effect is an unsubscribe call. -/
def Effect.isUnsub : Effect → Bool
  | Effect.unsubscribed _ => true
  | _ => false

/-- Whether an effect is an abort call. -/
def Effect.isAbort : Effect → Bool
  | Effect.abortCalled _ => true
  | _ => false

/-- Every dispatch in the trace is preceded by an unsubscribe call and an
abort call. -/
def precededByCancel (l : List Effect) : Prop :=
  ∀ (k : Nat) (e : Effect), l[k]? = some e → e.isDispatch = true →
    ∃ (i j : Nat) (eu ea : Effect), i < k ∧ j < k ∧
      l[i]? = some eu ∧ eu.isUnsub = true ∧ l[j]? = some ea ∧ ea.isAbort = true

/-- The trace contains at most one dispatch. -/
def atMostOneDispatch (l : List Effect) : Prop :=
  ∀ (k₁ k₂ : Nat) (e₁ e₂ : Effect), l[k₁]? = some e₁ → l[k₂]? = some e₂ →
    e₁.isDispatch = true → e₂.isDispatch = true → k₁ = k₂

/-- Between any two dispatches of the trace there is an unsubscribe call and
an abort call: the previous search is cancelled before the next one starts. -/
def cancelBetweenDispatches (l : List Effect) : Prop :=
  ∀ (k₁ k₂ : Nat) (e₁ e₂ : Effect), k₁ < k₂ → l[k₁]? = some e₁ → l[k₂]? = some e₂ →
    e₁.isDispatch = true → e₂.isDispatch = true →
    ∃ (i j : Nat) (eu ea : Effect), k₁ < i ∧ i < k₂ ∧ k₁ < j ∧ j < k₂ ∧
      l[i]? = some eu ∧ eu.isUnsub = true ∧ l[j]? = some ea ∧ ea.isAbort = true

/-- Effect chunk emitted by one event: at most one dispatch, preceded by
cancellation. -/
def goodChunk (l : List Effect) : Prop := atMostOneDispatch l ∧ precededByCancel l

/-- Cancellation discipline over a whole trace. -/
def goodTrace (l : List Effect) : Prop := precededByCancel l ∧ cancelBetweenDispatches l

/-- An unsubscribe effect is not a dispatch. -/
theorem not_dispatch_of_unsub (e : Effect) (h : e.isUnsub = true) : e.isDispatch = false := by
  cases e <;> first | rfl | exact absurd h (by simp [Effect.isUnsub])

/-- An abort effect is not a dispatch. -/
theorem not_dispatch_of_abort (e : Effect) (h : e.isAbort = true) : e.isDispatch = false := by
  cases e <;> first | rfl | exact absurd h (by simp [Effect.isAbort])

/-- A chunk without dispatches satisfies the chunk discipline vacuously. -/
theorem goodChunk_no_dispatch (l : List Effect) (h : ∀ e ∈ l, e.isDispatch = false) :
    goodChunk l := by
  constructor
  · intro k₁ k₂ e₁ e₂ h1 _ hd1 _
    exact absurd hd1 (by rw [h e₁ (List.getElem?_mem h1)]; exact Bool.false_ne_true)
  · intro k e hk hd
    exact absurd hd (by rw [h e (List.getElem?_mem hk)]; exact Bool.false_ne_true)

/-- The three-effect chunk unsubscribe-abort-dispatch satisfies the chunk
discipline. -/
theorem goodChunk_uad (eu ea ed : Effect) (hu : eu.isUnsub = true) (ha : ea.isAbort = true) :
    goodChunk [eu, ea, ed] := by
  have key : ∀ (k : Nat) (e : Effect), [eu, ea, ed][k]? = some e → e.isDispatch = true → k = 2 := by
    intro k e hk hd
    match k with
    | 0 =>
      obtain rfl : eu = e := Option.some.inj hk
      exact absurd hd (by rw [not_dispatch_of_unsub eu hu]; exact Bool.false_ne_true)
    | 1 =>
      obtain rfl : ea = e := Option.some.inj hk
      exact absurd hd (by rw [not_dispatch_of_abort ea ha]; exact Bool.false_ne_true)
    | 2 => rfl
    | n + 3 => exact Option.noConfusion hk
  constructor
  · intro k₁ k₂ e₁ e₂ h1 h2 hd1 hd2
    rw [key k₁ e₁ h1 hd1, key k₂ e₂ h2 hd2]
  · intro k e hk hd
    obtain rfl := key k e hk hd
    exact ⟨0, 1, eu, ea, by omega, by omega, rfl, hu, rfl, ha⟩

/-- The four-effect chunk abort-unsubscribe-abort-dispatch satisfies the
chunk discipline. -/
theorem goodChunk_auad (ea0 eu ea ed : Effect) (ha0 : ea0.isAbort = true)
    (hu : eu.isUnsub = true) (ha : ea.isAbort = true) :
    goodChunk [ea0, eu, ea, ed] := by
  have key : ∀ (k : Nat) (e : Effect), [ea0, eu, ea, ed][k]? = some e → e.isDispatch = true →
      k = 3 := by
    intro k e hk hd
    match k with
    | 0 =>
      obtain rfl : ea0 = e := Option.some.inj hk
      exact absurd hd (by rw [not_dispatch_of_abort ea0 ha0]; exact Bool.false_ne_true)
    | 1 =>
      obtain rfl : eu = e := Option.some.inj hk
      exact absurd hd (by rw [not_dispatch_of_unsub eu hu]; exact Bool.false_ne_true)
    | 2 =>
      obtain rfl : ea = e := Option.some.inj hk
      exact absurd hd (by rw [not_dispatch_of_abort ea ha]; exact Bool.false_ne_true)
    | 3 => rfl
    | n + 4 => exact Option.noConfusion hk
  constructor
  · intro k₁ k₂ e₁ e₂ h1 h2 hd1 hd2
    rw [key k₁ e₁ h1 hd1, key k₂ e₂ h2 hd2]
  · intro k e hk hd
    obtain rfl := key k e hk hd
    exact ⟨1, 2, eu, ea, by omega, by omega, rfl, hu, rfl, ha⟩

/-- Every non-refetch coordinator step emits a chunk obeying the chunk
discipline: stream handlers never dispatch, and both dispatching branches of
`timelineSearch` cancel (unsubscribe and abort) before their single
dispatch. -/
theorem goodChunk_stepEvent (m : Machine) (ev : CoordEvent) (hev : ev.isRefetch = false) :
    goodChunk (stepEvent m ev).2 := by
  cases ev with
  | searchCall ps request =>
    show goodChunk (timelineSearch ps request m).2
    cases request with
    | none => exact goodChunk_no_dispatch [] (by intro e he; exact absurd he (List.not_mem_nil e))
    | some req =>
      simp only [timelineSearch]
      split
      · exact goodChunk_no_dispatch [] (by intro e he; exact absurd he (List.not_mem_nil e))
      · split
        · split
          · refine goodChunk_no_dispatch _ ?_
            intro e he
            rw [List.mem_singleton.mp he]
            rfl
          · exact goodChunk_auad _ _ _ _ rfl rfl rfl
        · exact goodChunk_uad _ _ _ rfl rfl
  | streamNext isRunning resp now =>
    show goodChunk (onStreamNext isRunning resp now m).2
    cases hcur : m.curSub with
    | none =>
      simp only [onStreamNext, hcur]
      exact goodChunk_no_dispatch [] (by intro e he; exact absurd he (List.not_mem_nil e))
    | some e =>
      simp only [onStreamNext, hcur]
      split
      · split
        · exact goodChunk_no_dispatch [] (by intro e he; exact absurd he (List.not_mem_nil e))
        · refine goodChunk_no_dispatch _ ?_
          intro e2 he
          rw [List.mem_singleton.mp he]
          rfl
      · exact goodChunk_no_dispatch [] (by intro e he; exact absurd he (List.not_mem_nil e))
  | streamError =>
    show goodChunk (onStreamError m).2
    cases hcur : m.curSub with
    | none =>
      simp only [onStreamError, hcur]
      exact goodChunk_no_dispatch [] (by intro e he; exact absurd he (List.not_mem_nil e))
    | some e =>
      simp only [onStreamError, hcur]
      split
      · refine goodChunk_no_dispatch _ ?_
        intro e2 he
        rcases List.mem_cons.mp he with h2 | h2
        · rw [h2]; rfl
        · rw [List.mem_singleton.mp h2]; rfl
      · exact goodChunk_no_dispatch [] (by intro e he; exact absurd he (List.not_mem_nil e))
  | refetch => exact absurd hev (by simp [CoordEvent.isRefetch])

/-- The empty trace obeys the cancellation discipline. -/
theorem goodTrace_nil : goodTrace ([] : List Effect) := by
  constructor
  · intro k e hk _
    exact Option.noConfusion hk
  · intro k₁ k₂ e₁ e₂ _ h1 _ _ _
    exact Option.noConfusion h1

/-- Prepending a disciplined chunk to a disciplined trace yields a
disciplined trace. -/
theorem goodTrace_append (l₁ l₂ : List Effect) (h₁ : goodChunk l₁) (h₂ : goodTrace l₂) :
    goodTrace (l₁ ++ l₂) := by
  obtain ⟨h₁one, h₁pre⟩ := h₁
  obtain ⟨h₂pre, h₂btw⟩ := h₂
  constructor
  · intro k e hk hd
    rw [List.getElem?_append] at hk
    split at hk
    · rename_i hlt
      obtain ⟨i, j, eu, ea, hik, hjk, hiu, huu, hja, haa⟩ := h₁pre k e hk hd
      refine ⟨i, j, eu, ea, hik, hjk, ?_, huu, ?_, haa⟩
      · rw [List.getElem?_append, if_pos (by omega)]
        exact hiu
      · rw [List.getElem?_append, if_pos (by omega)]
        exact hja
    · rename_i hge
      obtain ⟨i, j, eu, ea, hik, hjk, hiu, huu, hja, haa⟩ :=
        h₂pre (k - l₁.length) e hk hd
      refine ⟨l₁.length + i, l₁.length + j, eu, ea, by omega, by omega, ?_, huu, ?_, haa⟩
      · rw [List.getElem?_append_right (by omega), Nat.add_sub_cancel_left]
        exact hiu
      · rw [List.getElem?_append_right (by omega), Nat.add_sub_cancel_left]
        exact hja
  · intro k₁ k₂ e₁ e₂ hlt h1 h2 hd1 hd2
    rw [List.getElem?_append] at h1 h2
    split at h1 <;> split at h2
    · rename_i ha hb
      exact absurd (h₁one k₁ k₂ e₁ e₂ h1 h2 hd1 hd2) (by omega)
    · rename_i ha hb
      obtain ⟨i, j, eu, ea, hik, hjk, hiu, huu, hja, haa⟩ :=
        h₂pre (k₂ - l₁.length) e₂ h2 hd2
      refine ⟨l₁.length + i, l₁.length + j, eu, ea, by omega, by omega, by omega, by omega,
        ?_, huu, ?_, haa⟩
      · rw [List.getElem?_append_right (by omega), Nat.add_sub_cancel_left]
        exact hiu
      · rw [List.getElem?_append_right (by omega), Nat.add_sub_cancel_left]
        exact hja
    · rename_i ha hb
      exact absurd hlt (by omega)
    · rename_i ha hb
      obtain ⟨i, j, eu, ea, hi1, hi2, hj1, hj2, hiu, huu, hja, haa⟩ :=
        h₂btw (k₁ - l₁.length) (k₂ - l₁.length) e₁ e₂ (by omega) h1 h2 hd1 hd2
      refine ⟨l₁.length + i, l₁.length + j, eu, ea, by omega, by omega, by omega, by omega,
        ?_, huu, ?_, haa⟩
      · rw [List.getElem?_append_right (by omega), Nat.add_sub_cancel_left]
        exact hiu
      · rw [List.getElem?_append_right (by omega), Nat.add_sub_cancel_left]
        exact hja

/-- Without refetch events the full effect trace obeys the cancellation
discipline. -/
theorem goodTrace_runEvents (evs : List CoordEvent) (m : Machine)
    (h : ∀ e ∈ evs, e.isRefetch = false) : goodTrace (runEvents m evs).2 := by
  induction evs generalizing m with
  | nil => exact goodTrace_nil
  | cons ev rest ih =>
    show goodTrace ((stepEvent m ev).2 ++ (runEvents (stepEvent m ev).1 rest).2)
    exact goodTrace_append _ _
      (goodChunk_stepEvent m ev (h ev (List.mem_cons_self ev rest)))
      (ih (stepEvent m ev).1 (fun e he => h e (List.mem_cons_of_mem ev he)))

/-- Subscription invariant: all live subscriptions are the current one, so
there is no live subscription at all or exactly the one the coordinator
holds. -/
def subsOk (m : Machine) : Prop :=
  m.activeSubs = [] ∨ ∃ e, m.curSub = some e ∧ m.activeSubs = [e.subId]

/-- The initial machine satisfies the subscription invariant. -/
theorem subsOk_init (id : String) : subsOk (Machine.init id) := Or.inl rfl

/-- Under the invariant, unsubscribing the current subscription leaves no
live subscription. -/
theorem unsub_clears (m : Machine) (h : subsOk m) :
    (unsubscribeCurrent m).activeSubs = [] := by
  rcases h with h | ⟨e, hc, hs⟩
  · cases hcur : m.curSub with
    | none => simp only [unsubscribeCurrent, hcur]; exact h
    | some e1 =>
      simp only [unsubscribeCurrent, hcur]
      rw [h]
      rfl
  · simp only [unsubscribeCurrent, hc]
    rw [hs]
    exact List.erase_cons_head e.subId []

/-- The dispatch tail re-establishes the subscription invariant: the fresh
subscription is the only live one. -/
theorem subsOk_dispatchSearch (ps : CallParams) (req : TimelineRequest) (m : Machine)
    (h : subsOk m) : subsOk (dispatchSearch ps req m).1 := by
  have h0 : (abortCurrent (unsubscribeCurrent m)).activeSubs = [] := unsub_clears m h
  right
  simp only [dispatchSearch, asyncSearchStep]
  refine ⟨_, rfl, ?_⟩
  rw [h0]

/-- The resume-from-cache branch does not touch subscriptions. -/
theorem subsOk_restoreState (ps : CallParams) (req : TimelineRequest) (m : Machine)
    (h : subsOk m) : subsOk (restoreState ps req m) := by
  rcases h with h | ⟨e, hc, hs⟩
  · exact Or.inl h
  · exact Or.inr ⟨e, hc, hs⟩

/-- `timelineSearch` preserves the subscription invariant. -/
theorem subsOk_timelineSearch (ps : CallParams) (request : Option TimelineRequest)
    (m : Machine) (h : subsOk m) : subsOk (timelineSearch ps request m).1 := by
  cases request with
  | none => exact h
  | some req =>
    simp only [timelineSearch]
    split
    · exact h
    · split
      · split
        · exact subsOk_restoreState ps req m h
        · exact subsOk_dispatchSearch ps req (restoreState ps req m)
            (subsOk_restoreState ps req m h)
      · exact subsOk_dispatchSearch ps req m h

/-- The stream `next` handler preserves the subscription invariant. -/
theorem subsOk_onStreamNext (isRunning : Bool) (resp : StreamResp) (now : Nat) (m : Machine)
    (h : subsOk m) : subsOk (onStreamNext isRunning resp now m).1 := by
  cases hcur : m.curSub with
  | none =>
    simp only [onStreamNext, hcur]
    exact h
  | some e =>
    simp only [onStreamNext, hcur]
    split
    · split
      · exact h
      · left
        show m.activeSubs.erase e.subId = []
        rcases h with hs | ⟨e', hc', hs'⟩
        · rw [hs]
          rfl
        · rw [hcur] at hc'
          obtain rfl : e = e' := Option.some.inj hc'
          rw [hs']
          exact List.erase_cons_head e.subId []
    · exact h

/-- The stream `error` handler preserves the subscription invariant. -/
theorem subsOk_onStreamError (m : Machine) (h : subsOk m) : subsOk (onStreamError m).1 := by
  cases hcur : m.curSub with
  | none =>
    simp only [onStreamError, hcur]
    exact h
  | some e =>
    simp only [onStreamError, hcur]
    split
    · left
      show m.activeSubs.erase e.subId = []
      rcases h with hs | ⟨e', hc', hs'⟩
      · rw [hs]
        rfl
      · rw [hcur] at hc'
        obtain rfl : e = e' := Option.some.inj hc'
        rw [hs']
        exact List.erase_cons_head e.subId []
    · exact h

/-- Every non-refetch step preserves the subscription invariant. -/
theorem subsOk_stepEvent (m : Machine) (ev : CoordEvent) (hev : ev.isRefetch = false)
    (h : subsOk m) : subsOk (stepEvent m ev).1 := by
  cases ev with
  | searchCall ps request => exact subsOk_timelineSearch ps request m h
  | streamNext isRunning resp now => exact subsOk_onStreamNext isRunning resp now m h
  | streamError => exact subsOk_onStreamError m h
  | refetch => exact absurd hev (by simp [CoordEvent.isRefetch])

/-- Running any refetch-free schedule preserves the subscription
invariant. -/
theorem subsOk_runEvents (evs : List CoordEvent) (m : Machine)
    (h : ∀ e ∈ evs, e.isRefetch = false) (hm : subsOk m) : subsOk (runEvents m evs).1 := by
  induction evs generalizing m with
  | nil => exact hm
  | cons ev rest ih =>
    exact ih (stepEvent m ev).1 (fun e he => h e (List.mem_cons_of_mem ev he))
      (subsOk_stepEvent m ev (h ev (List.mem_cons_self ev rest)) hm)

/-- Under the invariant at most one subscription is live. -/
theorem length_le_one_of_subsOk (m : Machine) (h : subsOk m) : m.activeSubs.length ≤ 1 := by
  rcases h with h | ⟨e, _, hs⟩
  · rw [h]
    exact Nat.zero_le 1
  · rw [hs]
    exact Nat.le_refl 1

/-- C4 (amended): in every execution that never invokes the stored refetch
trigger, at most one subscription is live at every point, and the effect
trace obeys the cancellation discipline: every dispatch is preceded by an
unsubscribe and an abort, and between any two dispatches the previous
subscription is unsubscribed and its controller aborted.  (The original
claim fails only on the refetch path, which calls `asyncSearch` directly
with no cancellation; see the counterexample.) -/
theorem C4_single_subscription_no_refetch (id : String) (evs : List CoordEvent)
    (h : ∀ e ∈ evs, e.isRefetch = false) :
    (runEvents (Machine.init id) evs).1.activeSubs.length ≤ 1 ∧
    precededByCancel (runEvents (Machine.init id) evs).2 ∧
    cancelBetweenDispatches (runEvents (Machine.init id) evs).2 := by
  have h1 := subsOk_runEvents evs (Machine.init id) h (subsOk_init id)
  have h2 := goodTrace_runEvents evs (Machine.init id) h
  exact ⟨length_le_one_of_subsOk _ h1, h2.1, h2.2⟩

/-- C4 (amended) witness: the discipline evaluated on a concrete refetch-free
execution consisting of one search call. -/
theorem C4_single_subscription_no_refetch_witness :
    (runEvents (Machine.init "tbl")
        [CoordEvent.searchCall samplePsTbl (some sampleRequestKuery)]).1.activeSubs.length ≤ 1 ∧
    precededByCancel (runEvents (Machine.init "tbl")
        [CoordEvent.searchCall samplePsTbl (some sampleRequestKuery)]).2 ∧
    cancelBetweenDispatches (runEvents (Machine.init "tbl")
        [CoordEvent.searchCall samplePsTbl (some sampleRequestKuery)]).2 :=
  C4_single_subscription_no_refetch "tbl"
    [CoordEvent.searchCall samplePsTbl (some sampleRequestKuery)] (by decide)

/-- C4: counterexample.  The claim asserts that at every point of every
execution at most one subscription is live and that every dispatch is
preceded by cancellation.  Invoking the stored refetch trigger while a
search is in flight calls `asyncSearch` directly — no unsubscribe, no abort —
so after a search call followed by a refetch two subscriptions are live at
once. -/
theorem C4_two_live_subscriptions_counterexample :
    (runEvents (Machine.init "tbl")
        [CoordEvent.searchCall samplePsTbl (some sampleRequestKuery),
         CoordEvent.refetch]).1.activeSubs.length = 2 := by
  decide
